import Mathlib

/-!
Shallow embedding of the redditclone vote/karma engine and thread stores
(internal/service, internal/repository, pkg/database), with proofs about the
behaviour of the embedded operations.

Modelling conventions:
* Machine ints become `Nat` (ids, timestamps) and `Int` (karma, deltas);
  none of the modelled arithmetic can overflow in the relevant ranges.
* A SQLite database handle becomes an explicit `DB` state record; each Go
  repository method becomes a function on `DB`.  A single SQL statement is
  atomic, so repository methods return `Except String` results that either
  mutate or leave the state alone; service methods return the (possibly
  partially mutated) state together with an optional error string, because a
  Go service function that fails halfway leaves its earlier writes committed.
* Error strings are the exact strings built by the Go code (the vote service
  compares two of them by value, so they are semantically relevant).
* SQLite is run with PRAGMA foreign_keys = ON, so INSERTs check their FOREIGN
  KEY clauses; the votes table in addition carries
  CHECK (vote_type IN (upvote, downvote)).  The UNIQUE(user_id, post_id,
  comment_id) constraint on votes is not a failure source on any
  service-reachable path: SQLite treats NULLs in a UNIQUE index as distinct,
  and every vote created through the service has one of post_id/comment_id
  NULL.
* CURRENT_TIMESTAMP is the `now` field of the state; AUTOINCREMENT ids come
  from the `next...ID` counters.  A SELECT whose ORDER BY names no secondary
  sort key does not determine the relative order of rows that tie on the
  sort key, so the GetReplies queries are modelled as relations between the
  state and their possible result lists rather than as functions.
* `karmaLog` is a ghost field: `UpdateKarma` conses the (targetType,
  targetID, delta) triple it successfully applied.  No modelled code reads
  it; it only lets theorems talk about which deltas were applied how often.
-/

namespace RedditClone

/-- Row of the posts table / models.Post: id, title, content, author_id,
subreddit_id, karma, created_at, updated_at. -/
structure Post where
  id : Nat
  title : String
  content : String
  authorID : Nat
  subredditID : Nat
  karma : Int
  createdAt : Nat
  updatedAt : Nat
  deriving Repr, DecidableEq

/-- Row of the comments table / models.Comment: id, content, author_id,
post_id, parent_id (nullable), karma, created_at, updated_at. -/
structure Comment where
  id : Nat
  content : String
  authorID : Nat
  postID : Nat
  parentID : Option Nat
  karma : Int
  createdAt : Nat
  updatedAt : Nat
  deriving Repr, DecidableEq

/-- Row of the votes table / models.Vote: id, user_id, post_id (nullable),
comment_id (nullable), vote_type (a string), created_at, updated_at. -/
structure Vote where
  id : Nat
  userID : Nat
  postID : Option Nat
  commentID : Option Nat
  voteType : String
  createdAt : Nat
  updatedAt : Nat
  deriving Repr, DecidableEq

/-- Row of the messages table / models.Message: id, sender_id, receiver_id,
content, parent_id (nullable), created_at, updated_at. -/
structure Message where
  id : Nat
  senderID : Nat
  receiverID : Nat
  content : String
  parentID : Option Nat
  createdAt : Nat
  updatedAt : Nat
  deriving Repr, DecidableEq

/-- The SQLite database state.  Users are reduced to their ids (only
existence of a user id is ever read by the modelled code).  `karmaLog` is the
ghost trace of successfully applied karma deltas, newest first. -/
structure DB where
  users : List Nat
  posts : List Post
  comments : List Comment
  votes : List Vote
  messages : List Message
  nextVoteID : Nat
  nextCommentID : Nat
  nextMessageID : Nat
  now : Nat
  karmaLog : List (String × Nat × Int)
  deriving Repr, DecidableEq

/-- The WHERE clause of GetVoteByUserAndPost:
user_id = userID AND post_id = postID AND comment_id IS NULL. -/
def voteKeyPost (userID postID : Nat) (v : Vote) : Bool :=
  v.userID == userID && v.postID == some postID && v.commentID == none

/-- The WHERE clause of GetVoteByUserAndComment:
user_id = userID AND comment_id = commentID AND post_id IS NULL. -/
def voteKeyComment (userID commentID : Nat) (v : Vote) : Bool :=
  v.userID == userID && v.commentID == some commentID && v.postID == none

namespace voteRepository

/-- internal/repository/vote_repository.go CreateVote: INSERT INTO votes.
With foreign_keys ON the statement checks the user_id, post_id and comment_id
FOREIGN KEYs and the vote_type CHECK; on success SQLite assigns the next id
and the CURRENT_TIMESTAMP timestamps and the row is appended. -/
def CreateVote (db : DB) (vote : Vote) : Except String (Vote × DB) :=
  if ¬ db.users.contains vote.userID then
    .error "CreateVote: FOREIGN KEY constraint failed"
  else if vote.postID.any (fun p => !db.posts.any (·.id == p)) then
    .error "CreateVote: FOREIGN KEY constraint failed"
  else if vote.commentID.any (fun c => !db.comments.any (·.id == c)) then
    .error "CreateVote: FOREIGN KEY constraint failed"
  else if vote.voteType ≠ "upvote" ∧ vote.voteType ≠ "downvote" then
    .error "CreateVote: CHECK constraint failed: vote_type"
  else
    let v := { vote with id := db.nextVoteID, createdAt := db.now, updatedAt := db.now }
    .ok (v, { db with votes := db.votes ++ [v], nextVoteID := db.nextVoteID + 1 })

/-- internal/repository/vote_repository.go GetVoteByUserAndPost: SELECT the
first row matching the WHERE clause, or the not-found error on no rows. -/
def GetVoteByUserAndPost (db : DB) (userID postID : Nat) : Except String Vote :=
  match db.votes.find? (voteKeyPost userID postID) with
  | some v => .ok v
  | none => .error "GetVoteByUserAndPost: vote not found"

/-- internal/repository/vote_repository.go GetVoteByUserAndComment. -/
def GetVoteByUserAndComment (db : DB) (userID commentID : Nat) : Except String Vote :=
  match db.votes.find? (voteKeyComment userID commentID) with
  | some v => .ok v
  | none => .error "GetVoteByUserAndComment: vote not found"

/-- internal/repository/vote_repository.go UpdateVote: UPDATE votes SET
vote_type, updated_at WHERE id; RETURNING makes a no-row update an error. -/
def UpdateVote (db : DB) (vote : Vote) : Except String DB :=
  if db.votes.any (·.id == vote.id) then
    .ok { db with votes := db.votes.map fun w =>
            if w.id == vote.id then { w with voteType := vote.voteType, updatedAt := db.now } else w }
  else .error "UpdateVote: sql: no rows in result set"

/-- internal/repository/vote_repository.go DeleteVote: DELETE FROM votes
WHERE id; zero rows affected is an error. -/
def DeleteVote (db : DB) (vote : Vote) : Except String DB :=
  if db.votes.any (·.id == vote.id) then
    .ok { db with votes := db.votes.filter fun w => ¬ w.id == vote.id }
  else .error "DeleteVote: no vote found to delete"

end voteRepository

namespace postRepository

/-- internal/repository/post_repository.go GetPostByID. -/
def GetPostByID (db : DB) (id : Nat) : Except String Post :=
  match db.posts.find? (·.id == id) with
  | some p => .ok p
  | none => .error "GetPostByID: post not found"

/-- internal/repository/post_repository.go UpdatePost: UPDATE posts SET
title = $1, content = $2, updated_at = CURRENT_TIMESTAMP WHERE id = $3.
The SET clause does not mention the karma column, so the karma of the stored
row is left as it was. -/
def UpdatePost (db : DB) (post : Post) : Except String DB :=
  if db.posts.any (·.id == post.id) then
    .ok { db with posts := db.posts.map fun q =>
            if q.id == post.id then
              { q with title := post.title, content := post.content, updatedAt := db.now }
            else q }
  else .error "UpdatePost: sql: no rows in result set"

end postRepository

namespace commentRepository

/-- internal/repository/comment_repository.go CreateComment: INSERT INTO
comments with karma 0; FOREIGN KEYs on author_id, post_id and (when non-NULL)
parent_id are checked. -/
def CreateComment (db : DB) (comment : Comment) : Except String (Comment × DB) :=
  if ¬ db.users.contains comment.authorID then
    .error "CreateComment: FOREIGN KEY constraint failed"
  else if ¬ db.posts.any (·.id == comment.postID) then
    .error "CreateComment: FOREIGN KEY constraint failed"
  else if comment.parentID.any (fun pid => !db.comments.any (·.id == pid)) then
    .error "CreateComment: FOREIGN KEY constraint failed"
  else
    let c := { comment with id := db.nextCommentID, karma := 0,
                            createdAt := db.now, updatedAt := db.now }
    .ok (c, { db with comments := db.comments ++ [c], nextCommentID := db.nextCommentID + 1 })

/-- internal/repository/comment_repository.go GetCommentByID. -/
def GetCommentByID (db : DB) (id : Nat) : Except String Comment :=
  match db.comments.find? (·.id == id) with
  | some c => .ok c
  | none => .error "GetCommentByID: comment not found"

/-- internal/repository/comment_repository.go GetReplies: SELECT FROM
comments WHERE parent_id = $1 ORDER BY created_at ASC LIMIT $2 OFFSET $3.
The ORDER BY has no secondary sort key, so SQLite does not determine the
relative order of rows that tie on created_at: the query denotes a relation
between the state and its possible result lists.  A list is a possible
result when it is an OFFSET/LIMIT window of some permutation of the WHERE
matches that is sorted by created_at; each query execution may realize a
different such permutation. -/
def GetRepliesResult (db : DB) (parentID : Nat) (limit offset : Nat)
    (out : List Comment) : Prop :=
  ∃ sorted : List Comment,
    sorted.Perm (db.comments.filter fun c => c.parentID == some parentID) ∧
    sorted.Pairwise (fun a b => a.createdAt ≤ b.createdAt) ∧
    out = (sorted.drop offset).take limit

/-- internal/repository/comment_repository.go UpdateComment: UPDATE comments
SET content = $1, updated_at WHERE id.  As with posts, karma is not in the
SET clause and is left unchanged in the stored row. -/
def UpdateComment (db : DB) (comment : Comment) : Except String DB :=
  if db.comments.any (·.id == comment.id) then
    .ok { db with comments := db.comments.map fun q =>
            if q.id == comment.id then
              { q with content := comment.content, updatedAt := db.now }
            else q }
  else .error "UpdateComment: sql: no rows in result set"

end commentRepository

namespace messageRepository

/-- internal/repository/message_repository.go SendMessage: INSERT INTO
messages; FOREIGN KEYs on sender_id, receiver_id and (when non-NULL)
parent_id are checked. -/
def SendMessage (db : DB) (message : Message) : Except String (Message × DB) :=
  if ¬ db.users.contains message.senderID then
    .error "SendMessage: FOREIGN KEY constraint failed"
  else if ¬ db.users.contains message.receiverID then
    .error "SendMessage: FOREIGN KEY constraint failed"
  else if message.parentID.any (fun pid => !db.messages.any (·.id == pid)) then
    .error "SendMessage: FOREIGN KEY constraint failed"
  else
    let m := { message with id := db.nextMessageID, createdAt := db.now, updatedAt := db.now }
    .ok (m, { db with messages := db.messages ++ [m], nextMessageID := db.nextMessageID + 1 })

/-- internal/repository/message_repository.go GetMessageByID. -/
def GetMessageByID (db : DB) (id : Nat) : Except String Message :=
  match db.messages.find? (·.id == id) with
  | some m => .ok m
  | none => .error "GetMessageByID: message not found"

/-- internal/repository/message_repository.go GetReplies: SELECT FROM
messages WHERE parent_id = $1 ORDER BY created_at ASC LIMIT $2 OFFSET $3,
modelled as a relation exactly like the comment variant: the tie order on
created_at is not determined by the query. -/
def GetRepliesResult (db : DB) (parentID : Nat) (limit offset : Nat)
    (out : List Message) : Prop :=
  ∃ sorted : List Message,
    sorted.Perm (db.messages.filter fun m => m.parentID == some parentID) ∧
    sorted.Pairwise (fun a b => a.createdAt ≤ b.createdAt) ∧
    out = (sorted.drop offset).take limit

end messageRepository

namespace userRepository

/-- internal/repository GetUserByID (userRepository): only the existence of
the row matters to the modelled callers, so the result is the id itself. -/
def GetUserByID (db : DB) (id : Nat) : Except String Nat :=
  if db.users.contains id then .ok id
  else .error "GetUserByID: user not found"

end userRepository

namespace voteService

open voteRepository postRepository commentRepository

/-- internal/service/vote_service.go UpdateKarma: switch on targetType, load
the target row, add delta to the in-memory copy, and write it back with
UpdatePost / UpdateComment.  On success the ghost log records the applied
triple.  Note that UpdatePost and UpdateComment do not write the karma
column, so the increment never reaches the stored row. -/
def UpdateKarma (db : DB) (targetType : String) (targetID : Nat) (delta : Int) :
    DB × Option String :=
  if targetType = "post" then
    match GetPostByID db targetID with
    | .error e => (db, some e)
    | .ok post =>
      match UpdatePost db { post with karma := post.karma + delta } with
      | .error e => (db, some e)
      | .ok db' => ({ db' with karmaLog := (targetType, targetID, delta) :: db'.karmaLog }, none)
  else if targetType = "comment" then
    match GetCommentByID db targetID with
    | .error e => (db, some e)
    | .ok comment =>
      match UpdateComment db { comment with karma := comment.karma + delta } with
      | .error e => (db, some e)
      | .ok db' => ({ db' with karmaLog := (targetType, targetID, delta) :: db'.karmaLog }, none)
  else (db, some "UpdateKarma: invalid target type")

/-- internal/service/vote_service.go CastVote.  The vote-type validation is
commented out in the source; the target check, the duplicate check against
the two not-found strings, CreateVote, the delta computation and UpdateKarma
follow the Go control flow.  An error after CreateVote leaves the inserted
vote in place. -/
def CastVote (db : DB) (vote : Vote) : DB × Option String :=
  if (vote.postID = none ∧ vote.commentID = none) ∨
     (vote.postID ≠ none ∧ vote.commentID ≠ none) then
    (db, some "CastVote: vote must be on either a post or a comment")
  else
    match (match vote.postID with
           | some p => GetVoteByUserAndPost db vote.userID p
           | none => GetVoteByUserAndComment db vote.userID (vote.commentID.getD 0)) with
    | .ok _ => (db, some "CastVote: user has already voted on this target")
    | .error e =>
      if e ≠ "GetVoteByUserAndPost: vote not found" ∧
         e ≠ "GetVoteByUserAndComment: vote not found" then
        (db, some ("CastVote: " ++ e))
      else
        match CreateVote db vote with
        | .error e2 => (db, some e2)
        | .ok (_, db1) =>
          match vote.postID with
          | some p => UpdateKarma db1 "post" p (if vote.voteType = "upvote" then 1 else -1)
          | none => UpdateKarma db1 "comment" (vote.commentID.getD 0)
                      (if vote.voteType = "upvote" then 1 else -1)

/-- internal/service/vote_service.go ChangeVote: validate the vote type and
the target, load the existing vote, reject an unchanged type, flip the stored
value via UpdateVote, and apply delta 2 or -2 via UpdateKarma. -/
def ChangeVote (db : DB) (vote : Vote) : DB × Option String :=
  if vote.voteType ≠ "upvote" ∧ vote.voteType ≠ "downvote" then
    (db, some "ChangeVote: invalid vote type")
  else if (vote.postID = none ∧ vote.commentID = none) ∨
          (vote.postID ≠ none ∧ vote.commentID ≠ none) then
    (db, some "ChangeVote: vote must be on either a post or a comment")
  else
    match (match vote.postID with
           | some p => GetVoteByUserAndPost db vote.userID p
           | none => GetVoteByUserAndComment db vote.userID (vote.commentID.getD 0)) with
    | .error e => (db, some ("ChangeVote: " ++ e))
    | .ok existing =>
      if existing.voteType = vote.voteType then
        (db, some "ChangeVote: vote type is already set to the desired value")
      else
        match UpdateVote db { existing with voteType := vote.voteType } with
        | .error e => (db, some e)
        | .ok db1 =>
          match vote.postID with
          | some p => UpdateKarma db1 "post" p (if vote.voteType = "upvote" then 2 else -2)
          | none => UpdateKarma db1 "comment" (vote.commentID.getD 0)
                      (if vote.voteType = "upvote" then 2 else -2)

/-- internal/service/vote_service.go RemoveVote: a nonzero postID routes the
lookup to the post variant, otherwise the comment variant is used; the delta
negates the stored value; DeleteVote removes the row; UpdateKarma then runs
on whichever target the stored vote references.  There is no check that only
one of postID / commentID is nonzero. -/
def RemoveVote (db : DB) (userID postID commentID : Nat) : DB × Option String :=
  match (if postID ≠ 0 then GetVoteByUserAndPost db userID postID
         else GetVoteByUserAndComment db userID commentID) with
  | .error e => (db, some ("RemoveVote: " ++ e))
  | .ok existing =>
    match DeleteVote db existing with
    | .error e => (db, some e)
    | .ok db1 =>
      match existing.postID with
      | some p => UpdateKarma db1 "post" p (if existing.voteType = "upvote" then -1 else 1)
      | none =>
        match existing.commentID with
        | some c => UpdateKarma db1 "comment" c (if existing.voteType = "upvote" then -1 else 1)
        | none => (db1, some "RemoveVote: invalid vote target")

end voteService

namespace commentService

open commentRepository userRepository

/-- internal/service/comment_service.go ReplyToComment: content check,
author existence check, parent lookup by the dereferenced ParentID (a nil
ParentID would crash the Go code; the model dereferences with default 0),
then the PostID of the new comment is overwritten with the PostID of the
parent, and the comment is created. -/
def ReplyToComment (db : DB) (comment : Comment) : DB × Option String :=
  if comment.content = "" then (db, some "ReplyToComment: content is required")
  else
    match GetUserByID db comment.authorID with
    | .error _ => (db, some "ReplyToComment: author does not exist")
    | .ok _ =>
      match GetCommentByID db (comment.parentID.getD 0) with
      | .error _ => (db, some "ReplyToComment: parent comment does not exist")
      | .ok parentComment =>
        match CreateComment db { comment with postID := parentComment.postID } with
        | .error e => (db, some e)
        | .ok (_, db1) => (db1, none)

end commentService

namespace messageService

open messageRepository userRepository

/-- internal/service/message_service.go SendMessage: content check, the
sender = receiver check against the caller-supplied receiver, sender and
receiver existence checks, then the repository insert. -/
def SendMessage (db : DB) (message : Message) : DB × Option String :=
  if message.content = "" then (db, some "SendMessage: content is required")
  else if message.senderID = message.receiverID then
    (db, some "SendMessage: sender and receiver cannot be the same")
  else
    match GetUserByID db message.senderID with
    | .error _ => (db, some "SendMessage: sender does not exist")
    | .ok _ =>
      match GetUserByID db message.receiverID with
      | .error _ => (db, some "SendMessage: receiver does not exist")
      | .ok _ =>
        match messageRepository.SendMessage db message with
        | .error e => (db, some e)
        | .ok (_, db1) => (db1, none)

/-- internal/service/message_service.go ReplyToMessage: content check, the
sender = receiver check against the caller-supplied receiver, sender
existence check, parent lookup by the dereferenced ParentID, then the
receiver is overwritten with the sender of the parent message (with no
further check) and the reply is inserted. -/
def ReplyToMessage (db : DB) (message : Message) : DB × Option String :=
  if message.content = "" then (db, some "ReplyToMessage: content is required")
  else if message.senderID = message.receiverID then
    (db, some "ReplyToMessage: sender and receiver cannot be the same")
  else
    match GetUserByID db message.senderID with
    | .error _ => (db, some "ReplyToMessage: sender does not exist")
    | .ok _ =>
      match GetMessageByID db (message.parentID.getD 0) with
      | .error _ => (db, some "ReplyToMessage: parent message does not exist")
      | .ok parentMessage =>
        match messageRepository.SendMessage db { message with receiverID := parentMessage.senderID } with
        | .error e => (db, some e)
        | .ok (_, db1) => (db1, none)

end messageService

/-! Observation helpers used by the theorems. -/

/-- A vote target: a post or a comment. -/
inductive Target where
  | post (id : Nat)
  | comment (id : Nat)
  deriving Repr, DecidableEq

/-- The lookup predicate the vote service uses for user u and target t. -/
def voteKeyT (userID : Nat) : Target → (Vote → Bool)
  | .post p => voteKeyPost userID p
  | .comment c => voteKeyComment userID c

/-- The live votes of user u on target t, as selected by the WHERE clauses of
the two lookup queries. -/
def votesFor (db : DB) (userID : Nat) (t : Target) : List Vote :=
  db.votes.filter (voteKeyT userID t)

/-- The (user_id, post_id, comment_id) key of a vote row, the triple the
lookup queries select on. -/
def voteKey (v : Vote) : Nat × Option Nat × Option Nat := (v.userID, v.postID, v.commentID)

/-- Invariant: no two live vote rows share a (user_id, post_id, comment_id)
key. -/
def VoteInv (db : DB) : Prop := (db.votes.map voteKey).Nodup

/-- The stored karma of the post with the given id, if present. -/
def postKarma (db : DB) (id : Nat) : Option Int :=
  (db.posts.find? (·.id == id)).map (·.karma)

/-- The stored karma of the comment with the given id, if present. -/
def commentKarma (db : DB) (id : Nat) : Option Int :=
  (db.comments.find? (·.id == id)).map (·.karma)

/-- The stored karma of target t, if the target row is present. -/
def targetKarma (db : DB) : Target → Option Int
  | .post p => postKarma db p
  | .comment c => commentKarma db c

/-- Whether the target row exists in the store. -/
def targetExists (db : DB) : Target → Bool
  | .post p => db.posts.any (·.id == p)
  | .comment c => db.comments.any (·.id == c)

/-- The targetType string the vote service passes to UpdateKarma. -/
def targetTypeStr : Target → String
  | .post _ => "post"
  | .comment _ => "comment"

/-- The id of the target. -/
def targetIdOf : Target → Nat
  | .post p => p
  | .comment c => c

/-- The not-found error string of the lookup used for target t. -/
def notFoundMsg : Target → String
  | .post _ => "GetVoteByUserAndPost: vote not found"
  | .comment _ => "GetVoteByUserAndComment: vote not found"

/-- The (user_id, post_id, comment_id) key of a live vote of user u on t. -/
def targetVoteKey (userID : Nat) : Target → Nat × Option Nat × Option Nat
  | .post p => (userID, some p, none)
  | .comment c => (userID, none, some c)

/-- The (postID, commentID) argument pair a caller passes to RemoveVote for
target t, using the 0 sentinel for the unused side. -/
def removeArgs : Target → Nat × Nat
  | .post p => (p, 0)
  | .comment c => (0, c)

/-- The numeric value of a stored vote_type string: upvote counts +1 and
anything else counts -1 (exactly the delta computation of CastVote). -/
def voteVal (voteType : String) : Int := if voteType = "upvote" then 1 else -1

/-- A fresh vote intent of user u on target t (the id and timestamps are
assigned by the repository on insert). -/
def mkVote (userID : Nat) (t : Target) (voteType : String) : Vote :=
  match t with
  | .post p => { id := 0, userID := userID, postID := some p, commentID := none,
                 voteType := voteType, createdAt := 0, updatedAt := 0 }
  | .comment c => { id := 0, userID := userID, postID := none, commentID := some c,
                    voteType := voteType, createdAt := 0, updatedAt := 0 }

/-! Concrete states for the scenario theorems and witnesses. -/

/-- Two users and one post with karma 0, no votes, no comments. -/
def dbA : DB :=
  { users := [1, 2]
    posts := [{ id := 1, title := "t", content := "c", authorID := 1, subredditID := 1,
                karma := 0, createdAt := 0, updatedAt := 0 }]
    comments := [], votes := [], messages := []
    nextVoteID := 1, nextCommentID := 1, nextMessageID := 1, now := 5, karmaLog := [] }

/-- State after user 1 cast an upvote on post 1 in `dbA`. -/
def dbA1 : DB := (voteService.CastVote dbA (mkVote 1 (.post 1) "upvote")).1

/-- State after user 2 also cast an upvote on post 1. -/
def dbA2 : DB := (voteService.CastVote dbA1 (mkVote 2 (.post 1) "upvote")).1

/-- State after user 1 changed the vote to a downvote. -/
def dbA3 : DB := (voteService.ChangeVote dbA2 (mkVote 1 (.post 1) "downvote")).1

/-- State after user 2 removed the vote on post 1. -/
def dbA4 : DB := (voteService.RemoveVote dbA3 2 1 0).1

/-- Two users and one root message 1 sent by user 1 to user 2. -/
def dbM : DB :=
  { users := [1, 2]
    posts := [], comments := [], votes := []
    messages := [{ id := 1, senderID := 1, receiverID := 2, content := "hi",
                   parentID := none, createdAt := 0, updatedAt := 0 }]
    nextVoteID := 1, nextCommentID := 1, nextMessageID := 2, now := 5, karmaLog := [] }

/-- User 1 replies to their own message 1, naming user 2 as receiver. -/
def replyMsg : Message :=
  { id := 0, senderID := 1, receiverID := 2, content := "re", parentID := some 1,
    createdAt := 0, updatedAt := 0 }

/-- Two users, post 1 and one root comment 1 under it. -/
def dbC : DB :=
  { users := [1, 2]
    posts := [{ id := 1, title := "t", content := "c", authorID := 1, subredditID := 1,
                karma := 0, createdAt := 0, updatedAt := 0 }]
    comments := [{ id := 1, content := "c1", authorID := 1, postID := 1, parentID := none,
                   karma := 0, createdAt := 0, updatedAt := 0 }]
    votes := [], messages := []
    nextVoteID := 1, nextCommentID := 2, nextMessageID := 1, now := 5, karmaLog := [] }

/-- A reply by user 2 to comment 1, with a bogus caller-supplied post id. -/
def replyC : Comment :=
  { id := 0, content := "re", authorID := 2, postID := 99, parentID := some 1,
    karma := 7, createdAt := 0, updatedAt := 0 }

/-- A thread store with one root comment and three replies, two of which tie
on created_at, plus a deeper reply under comment 2. -/
def dbR : DB :=
  { users := [1]
    posts := [{ id := 1, title := "t", content := "c", authorID := 1, subredditID := 1,
                karma := 0, createdAt := 0, updatedAt := 0 }]
    comments :=
      [{ id := 1, content := "root", authorID := 1, postID := 1, parentID := none,
         karma := 0, createdAt := 0, updatedAt := 0 },
       { id := 2, content := "r2", authorID := 1, postID := 1, parentID := some 1,
         karma := 0, createdAt := 7, updatedAt := 7 },
       { id := 3, content := "r3", authorID := 1, postID := 1, parentID := some 1,
         karma := 0, createdAt := 7, updatedAt := 7 },
       { id := 4, content := "deep", authorID := 1, postID := 1, parentID := some 2,
         karma := 0, createdAt := 1, updatedAt := 1 }]
    votes := [], messages := []
    nextVoteID := 1, nextCommentID := 5, nextMessageID := 1, now := 9, karmaLog := [] }

/-! Generic list lemmas. -/

/-- A nodup list whose elements are all equal to k has at most one element. -/
theorem length_le_one_of_nodup_const {α : Type} {l : List α} {k : α}
    (hn : l.Nodup) (hc : ∀ x ∈ l, x = k) : l.length ≤ 1 := by
  match l with
  | [] => simp
  | [x] => simp
  | x :: y :: s =>
    exfalso
    have hxy : x = y := by rw [hc x (by simp), hc y (by simp)]
    exact (List.nodup_cons.mp hn).1 (by rw [hxy]; exact List.mem_cons_self y s)

/-- The first match of a predicate is the head of the filtered list. -/
theorem find?_eq_head?_filter {α : Type} (p : α → Bool) (l : List α) :
    l.find? p = (l.filter p).head? := by
  induction l with
  | nil => rfl
  | cons x t ih =>
    cases h : p x
    · rw [List.find?_cons_of_neg _ (by simp [h]), List.filter_cons_of_neg (by simp [h]), ih]
    · rw [List.find?_cons_of_pos _ h, List.filter_cons_of_pos h, List.head?_cons]

/-- Filtering commutes with a map that does not change the predicate. -/
theorem filter_map_comm {α : Type} (f : α → α) (p : α → Bool)
    (h : ∀ x, p (f x) = p x) (l : List α) :
    (l.map f).filter p = (l.filter p).map f := by
  have hpf : p ∘ f = p := funext h
  rw [List.filter_map, hpf]

/-- Lookup commutes with a map that does not change the predicate. -/
theorem find?_map_comm {α : Type} (f : α → α) (p : α → Bool)
    (h : ∀ x, p (f x) = p x) (l : List α) :
    (l.map f).find? p = (l.find? p).map f := by
  have hpf : p ∘ f = p := funext h
  rw [List.find?_map, hpf]

/-! Lemmas about the vote lookup keys. -/

/-- The lookup predicate for (u, t) holds exactly on votes whose key is the
key of (u, t). -/
theorem voteKeyT_eq_true_iff {u : Nat} {t : Target} {v : Vote} :
    voteKeyT u t v = true ↔ voteKey v = targetVoteKey u t := by
  cases t <;> simp [voteKeyT, voteKeyPost, voteKeyComment, voteKey, targetVoteKey, and_assoc]
  tauto

/-- In a state satisfying the key invariant, at most one live vote exists for
any (user, target) pair. -/
theorem votesFor_length_le_one {db : DB} (h : VoteInv db) (u : Nat) (t : Target) :
    (votesFor db u t).length ≤ 1 := by
  have hsub : ((db.votes.filter (voteKeyT u t)).map voteKey).Sublist (db.votes.map voteKey) :=
    List.Sublist.map voteKey (List.filter_sublist db.votes)
  have hn : ((db.votes.filter (voteKeyT u t)).map voteKey).Nodup := hsub.nodup h
  have hc : ∀ k ∈ (db.votes.filter (voteKeyT u t)).map voteKey, k = targetVoteKey u t := by
    intro k hk
    rcases List.mem_map.mp hk with ⟨v, hv, rfl⟩
    exact voteKeyT_eq_true_iff.mp (List.of_mem_filter hv)
  have hlen := length_le_one_of_nodup_const hn hc
  simpa [votesFor] using hlen

/-! Inversion lemmas for the mutating repository operations. -/

theorem UpdatePost_ok {db : DB} {p : Post} {db' : DB}
    (h : postRepository.UpdatePost db p = .ok db') :
    db' = { db with posts := db.posts.map fun q =>
              if q.id == p.id then
                { q with title := p.title, content := p.content, updatedAt := db.now }
              else q } := by
  unfold postRepository.UpdatePost at h
  split at h
  · injection h with h; exact h.symm
  · cases h

theorem UpdateComment_ok {db : DB} {c : Comment} {db' : DB}
    (h : commentRepository.UpdateComment db c = .ok db') :
    db' = { db with comments := db.comments.map fun q =>
              if q.id == c.id then
                { q with content := c.content, updatedAt := db.now }
              else q } := by
  unfold commentRepository.UpdateComment at h
  split at h
  · injection h with h; exact h.symm
  · cases h

theorem UpdateVote_ok {db : DB} {v : Vote} {db' : DB}
    (h : voteRepository.UpdateVote db v = .ok db') :
    db' = { db with votes := db.votes.map fun w =>
              if w.id == v.id then
                { w with voteType := v.voteType, updatedAt := db.now }
              else w } := by
  unfold voteRepository.UpdateVote at h
  split at h
  · injection h with h; exact h.symm
  · cases h

theorem DeleteVote_ok {db : DB} {v : Vote} {db' : DB}
    (h : voteRepository.DeleteVote db v = .ok db') :
    db' = { db with votes := db.votes.filter fun w => ¬ w.id == v.id } := by
  unfold voteRepository.DeleteVote at h
  split at h
  · injection h with h; exact h.symm
  · cases h

theorem CreateVote_ok {db : DB} {v v' : Vote} {db' : DB}
    (h : voteRepository.CreateVote db v = .ok (v', db')) :
    v' = { v with id := db.nextVoteID, createdAt := db.now, updatedAt := db.now } ∧
    db' = { db with votes := db.votes ++ [v'], nextVoteID := db.nextVoteID + 1 } := by
  unfold voteRepository.CreateVote at h
  split at h
  · cases h
  · split at h
    · cases h
    · split at h
      · cases h
      · split at h
        · cases h
        · injection h with h
          injection h with h1 h2
          exact ⟨h1.symm, by rw [← h2, h1]⟩

/-! UpdateKarma leaves every table except posts/comments alone, and even
there it never changes a stored karma value. -/

theorem UpdateKarma_votes (db : DB) (tt : String) (tid : Nat) (d : Int) :
    (voteService.UpdateKarma db tt tid d).1.votes = db.votes := by
  unfold voteService.UpdateKarma
  split
  · split
    · rfl
    · split
      · rfl
      · rename_i post _ db' hupd
        rw [UpdatePost_ok hupd]
  · split
    · split
      · rfl
      · split
        · rfl
        · rename_i comment _ db' hupd
          rw [UpdateComment_ok hupd]
    · rfl

/-- Mapping an Int-valued projection over a lookup commutes with a map that
changes neither the lookup predicate nor the projection. -/
theorem map_find?_val {α : Type} (f : α → α) (key : α → Bool) (val : α → Int)
    (hkey : ∀ x, key (f x) = key x) (hval : ∀ x, val (f x) = val x) (l : List α) :
    ((l.map f).find? key).map val = (l.find? key).map val := by
  rw [find?_map_comm f key hkey l, Option.map_map]
  congr 1
  funext x
  exact hval x

/-- An existence test is unchanged by a map that preserves the predicate. -/
theorem map_any_key {α : Type} (f : α → α) (key : α → Bool)
    (hkey : ∀ x, key (f x) = key x) (l : List α) :
    (l.map f).any key = l.any key := by
  rw [List.any_map]
  congr 1
  exact funext hkey

/-- Two states with the same votes table satisfy the key invariant
together. -/
theorem voteInv_congr {X Y : DB} (h : X.votes = Y.votes) (hY : VoteInv Y) : VoteInv X := by
  unfold VoteInv at *
  rw [h]
  exact hY

/-- UpdateKarma either leaves the state alone (wrong target type, missing
row) or rewrites exactly one of posts/comments with the karma-dropping
UPDATE and conses the ghost log entry. -/
theorem UpdateKarma_cases (db : DB) (tt : String) (tid : Nat) (d : Int) :
    (voteService.UpdateKarma db tt tid d).1 = db ∨
    (∃ post, postRepository.GetPostByID db tid = .ok post ∧ tt = "post" ∧
      (voteService.UpdateKarma db tt tid d).1 =
        { db with
            posts := db.posts.map (fun q =>
              if q.id == post.id then
                { q with title := post.title, content := post.content, updatedAt := db.now }
              else q)
            karmaLog := (tt, tid, d) :: db.karmaLog }) ∨
    (∃ comment, commentRepository.GetCommentByID db tid = .ok comment ∧ tt = "comment" ∧
      (voteService.UpdateKarma db tt tid d).1 =
        { db with
            comments := db.comments.map (fun q =>
              if q.id == comment.id then
                { q with content := comment.content, updatedAt := db.now }
              else q)
            karmaLog := (tt, tid, d) :: db.karmaLog }) := by
  unfold voteService.UpdateKarma
  split
  · rename_i ht
    split
    · exact .inl rfl
    · rename_i post hget
      split
      · exact .inl rfl
      · rename_i db' hupd
        refine .inr (.inl ⟨post, hget, ht, ?_⟩)
        rw [UpdatePost_ok hupd]
  · rename_i ht
    split
    · rename_i ht2
      split
      · exact .inl rfl
      · rename_i comment hget
        split
        · exact .inl rfl
        · rename_i db' hupd
          refine .inr (.inr ⟨comment, hget, ht2, ?_⟩)
          rw [UpdateComment_ok hupd]
    · exact .inl rfl

theorem UpdateKarma_postKarma (db : DB) (tt : String) (tid : Nat) (d : Int) (q : Nat) :
    postKarma (voteService.UpdateKarma db tt tid d).1 q = postKarma db q := by
  rcases UpdateKarma_cases db tt tid d with h | ⟨post, _, _, h⟩ | ⟨comment, _, _, h⟩ <;> rw [h]
  · unfold postKarma
    exact map_find?_val _ _ _
      (fun x => by by_cases hx : x.id == post.id <;> simp [hx])
      (fun x => by by_cases hx : x.id == post.id <;> simp [hx]) db.posts
  · rfl

theorem UpdateKarma_commentKarma (db : DB) (tt : String) (tid : Nat) (d : Int) (q : Nat) :
    commentKarma (voteService.UpdateKarma db tt tid d).1 q = commentKarma db q := by
  rcases UpdateKarma_cases db tt tid d with h | ⟨post, _, _, h⟩ | ⟨comment, _, _, h⟩ <;> rw [h]
  · rfl
  · unfold commentKarma
    exact map_find?_val _ _ _
      (fun x => by by_cases hx : x.id == comment.id <;> simp [hx])
      (fun x => by by_cases hx : x.id == comment.id <;> simp [hx]) db.comments

theorem UpdateKarma_posts_any (db : DB) (tt : String) (tid : Nat) (d : Int) (q : Nat) :
    (voteService.UpdateKarma db tt tid d).1.posts.any (·.id == q) = db.posts.any (·.id == q) := by
  rcases UpdateKarma_cases db tt tid d with h | ⟨post, _, _, h⟩ | ⟨comment, _, _, h⟩ <;> rw [h]
  · exact map_any_key _ _
      (fun x => by by_cases hx : x.id == post.id <;> simp [hx]) db.posts

theorem UpdateKarma_comments_any (db : DB) (tt : String) (tid : Nat) (d : Int) (q : Nat) :
    (voteService.UpdateKarma db tt tid d).1.comments.any (·.id == q) =
      db.comments.any (·.id == q) := by
  rcases UpdateKarma_cases db tt tid d with h | ⟨post, _, _, h⟩ | ⟨comment, _, _, h⟩ <;> rw [h]
  · exact map_any_key _ _
      (fun x => by by_cases hx : x.id == comment.id <;> simp [hx]) db.comments

theorem UpdateKarma_misc (db : DB) (tt : String) (tid : Nat) (d : Int) :
    (voteService.UpdateKarma db tt tid d).1.users = db.users ∧
    (voteService.UpdateKarma db tt tid d).1.messages = db.messages ∧
    (voteService.UpdateKarma db tt tid d).1.nextVoteID = db.nextVoteID ∧
    (voteService.UpdateKarma db tt tid d).1.now = db.now := by
  rcases UpdateKarma_cases db tt tid d with h | ⟨post, _, _, h⟩ | ⟨comment, _, _, h⟩ <;> rw [h] <;>
    exact ⟨rfl, rfl, rfl, rfl⟩

/-- Negated form of the key characterization. -/
theorem voteKeyT_eq_false_iff {u : Nat} {t : Target} {v : Vote} :
    voteKeyT u t v = false ↔ voteKey v ≠ targetVoteKey u t := by
  rw [Bool.eq_false_iff]
  exact not_congr voteKeyT_eq_true_iff

/-- CastVote preserves the one-vote-per-key invariant: it only appends a
vote after the lookup for that key found nothing. -/
theorem CastVote_preserves_VoteInv {db : DB} (h : VoteInv db) (v : Vote) :
    VoteInv (voteService.CastVote db v).1 := by
  rcases hpid : v.postID with _ | p <;> rcases hcid : v.commentID with _ | c
  · unfold voteService.CastVote
    rw [if_pos (by simp [hpid, hcid])]
    exact h
  · -- comment vote
    unfold voteService.CastVote
    rw [if_neg (by simp [hpid, hcid])]
    simp only [hpid, hcid, Option.getD_some]
    cases hfind : db.votes.find? (voteKeyComment v.userID c) with
    | some w => simp only [voteRepository.GetVoteByUserAndComment, hfind]; exact h
    | none =>
      simp only [voteRepository.GetVoteByUserAndComment, hfind]
      rw [if_neg (by simp)]
      cases hcre : voteRepository.CreateVote db v with
      | error e2 => simp only [hcre]; exact h
      | ok pr =>
        obtain ⟨v', db1⟩ := pr
        obtain ⟨hv', hdb1⟩ := CreateVote_ok hcre
        simp only [hcre]
        refine voteInv_congr (UpdateKarma_votes db1 "comment" c _) ?_
        rw [hdb1]
        unfold VoteInv
        rw [List.map_append]
        refine List.Nodup.append h (List.nodup_singleton _) ?_
        intro k hk hk'
        rcases List.mem_map.mp hk with ⟨w, hw, rfl⟩
        have hwk : voteKey w ≠ targetVoteKey v.userID (.comment c) :=
      voteKeyT_eq_false_iff.mp (Bool.eq_false_iff.mpr (List.find?_eq_none.mp hfind w hw))
        have hv'k : voteKey v' = targetVoteKey v.userID (.comment c) := by
          rw [hv']
          simp [voteKey, targetVoteKey, hpid, hcid]
        simp only [List.map_singleton, List.mem_singleton] at hk'
        exact hwk (by rw [hk', hv'k])
  · -- post vote
    unfold voteService.CastVote
    rw [if_neg (by simp [hpid, hcid])]
    simp only [hpid, hcid]
    cases hfind : db.votes.find? (voteKeyPost v.userID p) with
    | some w => simp only [voteRepository.GetVoteByUserAndPost, hfind]; exact h
    | none =>
      simp only [voteRepository.GetVoteByUserAndPost, hfind]
      rw [if_neg (by simp)]
      cases hcre : voteRepository.CreateVote db v with
      | error e2 => simp only [hcre]; exact h
      | ok pr =>
        obtain ⟨v', db1⟩ := pr
        obtain ⟨hv', hdb1⟩ := CreateVote_ok hcre
        simp only [hcre]
        refine voteInv_congr (UpdateKarma_votes db1 "post" p _) ?_
        rw [hdb1]
        unfold VoteInv
        rw [List.map_append]
        refine List.Nodup.append h (List.nodup_singleton _) ?_
        intro k hk hk'
        rcases List.mem_map.mp hk with ⟨w, hw, rfl⟩
        have hwk : voteKey w ≠ targetVoteKey v.userID (.post p) :=
      voteKeyT_eq_false_iff.mp (Bool.eq_false_iff.mpr (List.find?_eq_none.mp hfind w hw))
        have hv'k : voteKey v' = targetVoteKey v.userID (.post p) := by
          rw [hv']
          simp [voteKey, targetVoteKey, hpid, hcid]
        simp only [List.map_singleton, List.mem_singleton] at hk'
        exact hwk (by rw [hk', hv'k])
  · unfold voteService.CastVote
    rw [if_pos (by simp [hpid, hcid])]
    exact h

/-- ChangeVote preserves the invariant: UpdateVote rewrites only the
vote_type of rows, never a key column. -/
theorem ChangeVote_preserves_VoteInv {db : DB} (h : VoteInv db) (v : Vote) :
    VoteInv (voteService.ChangeVote db v).1 := by
  unfold voteService.ChangeVote
  split
  · exact h
  · split
    · exact h
    · split
      · exact h
      · rename_i ex hex
        split
        · exact h
        · split
          · exact h
          · rename_i db1 hupd
            have hvotes : db1.votes = db.votes.map (fun w =>
                if w.id == ex.id then { w with voteType := v.voteType, updatedAt := db.now }
                else w) := by
              rw [UpdateVote_ok hupd]
            have hinv1 : VoteInv db1 := by
              unfold VoteInv
              rw [hvotes, List.map_map]
              have : (voteKey ∘ fun w =>
                  if w.id == ex.id then { w with voteType := v.voteType, updatedAt := db.now }
                  else w) = voteKey := by
                funext w
                by_cases hw : w.id = ex.id <;> simp [voteKey, hw]
              rw [this]
              exact h
            split <;>
              exact voteInv_congr (UpdateKarma_votes db1 _ _ _) hinv1

/-- RemoveVote preserves the invariant: DeleteVote only removes rows. -/
theorem RemoveVote_preserves_VoteInv {db : DB} (h : VoteInv db) (u pid cid : Nat) :
    VoteInv (voteService.RemoveVote db u pid cid).1 := by
  unfold voteService.RemoveVote
  split
  · exact h
  · rename_i ex
    split
    · exact h
    · rename_i db1 hdel
      have hinv1 : VoteInv db1 := by
        unfold VoteInv
        rw [DeleteVote_ok hdel]
        exact ((List.filter_sublist db.votes).map voteKey).nodup h
      split
      · exact voteInv_congr (UpdateKarma_votes db1 _ _ _) hinv1
      · split
        · exact voteInv_congr (UpdateKarma_votes db1 _ _ _) hinv1
        · exact hinv1

/-- Forward computation of CastVote on a fresh (u, post p) vote: with the
user and the post present, a valid vote type and no existing vote, the vote
row is inserted and the karma-losing UPDATE runs on the post. -/
theorem CastVote_post_ok (db : DB) (u p : Nat) (vt : String) (post : Post)
    (hu : db.users.contains u = true)
    (hpost : db.posts.find? (·.id == p) = some post)
    (hvt : vt = "upvote" ∨ vt = "downvote")
    (hnone : db.votes.find? (voteKeyPost u p) = none) :
    voteService.CastVote db (mkVote u (.post p) vt) =
      ({ db with
           votes := db.votes ++
             [{ mkVote u (.post p) vt with id := db.nextVoteID, createdAt := db.now, updatedAt := db.now }]
           nextVoteID := db.nextVoteID + 1
           posts := db.posts.map (fun q =>
             if q.id == p then
               { q with title := post.title, content := post.content, updatedAt := db.now }
             else q)
           karmaLog := ("post", p, if vt = "upvote" then 1 else -1) :: db.karmaLog }, none) := by
  have hpid : post.id = p := by simpa using List.find?_some hpost
  have hmem : post ∈ db.posts := List.mem_of_find?_eq_some hpost
  have hu' : u ∈ db.users := by simpa using hu
  have hany' : ∃ x ∈ db.posts, x.id = p := ⟨post, hmem, hpid⟩
  have hfk : ¬ ∀ x ∈ db.posts, ¬ x.id = p := by push_neg; exact hany'
  rcases hvt with rfl | rfl <;>
    simp [voteService.CastVote, mkVote, voteRepository.GetVoteByUserAndPost, hnone,
      voteRepository.CreateVote, hu', hany', hfk, voteService.UpdateKarma,
      postRepository.GetPostByID, postRepository.UpdatePost, hpost, hpid]

/-- Forward computation of CastVote on a fresh (u, comment c) vote. -/
theorem CastVote_comment_ok (db : DB) (u c : Nat) (vt : String) (comment : Comment)
    (hu : db.users.contains u = true)
    (hcomment : db.comments.find? (·.id == c) = some comment)
    (hvt : vt = "upvote" ∨ vt = "downvote")
    (hnone : db.votes.find? (voteKeyComment u c) = none) :
    voteService.CastVote db (mkVote u (.comment c) vt) =
      ({ db with
           votes := db.votes ++
             [{ mkVote u (.comment c) vt with id := db.nextVoteID, createdAt := db.now, updatedAt := db.now }]
           nextVoteID := db.nextVoteID + 1
           comments := db.comments.map (fun q =>
             if q.id == c then
               { q with content := comment.content, updatedAt := db.now }
             else q)
           karmaLog := ("comment", c, if vt = "upvote" then 1 else -1) :: db.karmaLog }, none) := by
  have hcid : comment.id = c := by simpa using List.find?_some hcomment
  have hmem : comment ∈ db.comments := List.mem_of_find?_eq_some hcomment
  have hu' : u ∈ db.users := by simpa using hu
  have hany' : ∃ x ∈ db.comments, x.id = c := ⟨comment, hmem, hcid⟩
  have hfk : ¬ ∀ x ∈ db.comments, ¬ x.id = c := by push_neg; exact hany'
  rcases hvt with rfl | rfl <;>
    simp [voteService.CastVote, mkVote, voteRepository.GetVoteByUserAndComment, hnone,
      voteRepository.CreateVote, hu', hany', hfk, voteService.UpdateKarma,
      commentRepository.GetCommentByID, commentRepository.UpdateComment, hcomment, hcid]

/-- Forward computation of ChangeVote on a post vote: with an existing vote
of a different valid type and the post present, the stored vote_type is
flipped and the (karma-dropping) UPDATE runs on the post with delta 2 or
-2. -/
theorem ChangeVote_post_ok (db : DB) (u p : Nat) (vt : String) (ex : Vote) (post : Post)
    (hvt : vt = "upvote" ∨ vt = "downvote")
    (hfind : db.votes.find? (voteKeyPost u p) = some ex)
    (hdiff : ex.voteType ≠ vt)
    (hpost : db.posts.find? (·.id == p) = some post) :
    voteService.ChangeVote db (mkVote u (.post p) vt) =
      ({ db with
           votes := db.votes.map (fun w =>
             if w.id == ex.id then { w with voteType := vt, updatedAt := db.now } else w)
           posts := db.posts.map (fun q =>
             if q.id == p then
               { q with title := post.title, content := post.content, updatedAt := db.now }
             else q)
           karmaLog := ("post", p, if vt = "upvote" then 2 else -2) :: db.karmaLog }, none) := by
  have hpid : post.id = p := by simpa using List.find?_some hpost
  have hpmem : post ∈ db.posts := List.mem_of_find?_eq_some hpost
  have hexmem : ex ∈ db.votes := List.mem_of_find?_eq_some hfind
  have hanyv : ∃ x ∈ db.votes, x.id = ex.id := ⟨ex, hexmem, rfl⟩
  have hany' : ∃ x ∈ db.posts, x.id = p := ⟨post, hpmem, hpid⟩
  rcases hvt with rfl | rfl <;>
    simp [voteService.ChangeVote, mkVote, voteRepository.GetVoteByUserAndPost, hfind,
      hdiff, Ne.symm (hdiff), voteRepository.UpdateVote, hanyv, voteService.UpdateKarma,
      postRepository.GetPostByID, postRepository.UpdatePost, hpost, hpid, hany']

/-- Forward computation of ChangeVote on a comment vote. -/
theorem ChangeVote_comment_ok (db : DB) (u c : Nat) (vt : String) (ex : Vote) (comment : Comment)
    (hvt : vt = "upvote" ∨ vt = "downvote")
    (hfind : db.votes.find? (voteKeyComment u c) = some ex)
    (hdiff : ex.voteType ≠ vt)
    (hcomment : db.comments.find? (·.id == c) = some comment) :
    voteService.ChangeVote db (mkVote u (.comment c) vt) =
      ({ db with
           votes := db.votes.map (fun w =>
             if w.id == ex.id then { w with voteType := vt, updatedAt := db.now } else w)
           comments := db.comments.map (fun q =>
             if q.id == c then
               { q with content := comment.content, updatedAt := db.now }
             else q)
           karmaLog := ("comment", c, if vt = "upvote" then 2 else -2) :: db.karmaLog }, none) := by
  have hcid : comment.id = c := by simpa using List.find?_some hcomment
  have hcmem : comment ∈ db.comments := List.mem_of_find?_eq_some hcomment
  have hexmem : ex ∈ db.votes := List.mem_of_find?_eq_some hfind
  have hanyv : ∃ x ∈ db.votes, x.id = ex.id := ⟨ex, hexmem, rfl⟩
  have hany' : ∃ x ∈ db.comments, x.id = c := ⟨comment, hcmem, hcid⟩
  rcases hvt with rfl | rfl <;>
    simp [voteService.ChangeVote, mkVote, voteRepository.GetVoteByUserAndComment, hfind,
      hdiff, Ne.symm (hdiff), voteRepository.UpdateVote, hanyv, voteService.UpdateKarma,
      commentRepository.GetCommentByID, commentRepository.UpdateComment, hcomment, hcid, hany']

/-- Forward computation of RemoveVote routed by a nonzero postID: the found
vote row is deleted and the karma-dropping UPDATE runs on the post the
stored vote references. -/
theorem RemoveVote_post_ok (db : DB) (u p : Nat) (w : Vote) (post : Post)
    (hp : p ≠ 0)
    (hfind : db.votes.find? (voteKeyPost u p) = some w)
    (hwpid : w.postID = some p)
    (hpost : db.posts.find? (·.id == p) = some post) :
    voteService.RemoveVote db u p 0 =
      ({ db with
           votes := db.votes.filter (fun x => ¬ x.id == w.id)
           posts := db.posts.map (fun q =>
             if q.id == p then
               { q with title := post.title, content := post.content, updatedAt := db.now }
             else q)
           karmaLog := ("post", p, if w.voteType = "upvote" then -1 else 1) :: db.karmaLog },
        none) := by
  have hpid : post.id = p := by simpa using List.find?_some hpost
  have hpmem : post ∈ db.posts := List.mem_of_find?_eq_some hpost
  have hwmem : w ∈ db.votes := List.mem_of_find?_eq_some hfind
  have hdel : ∃ x ∈ db.votes, x.id = w.id := ⟨w, hwmem, rfl⟩
  have hany' : ∃ x ∈ db.posts, x.id = p := ⟨post, hpmem, hpid⟩
  simp [voteService.RemoveVote, hp, voteRepository.GetVoteByUserAndPost, hfind,
    voteRepository.DeleteVote, hdel, hwpid, voteService.UpdateKarma,
    postRepository.GetPostByID, hpost, postRepository.UpdatePost, hpid, hany']

/-- Forward computation of RemoveVote routed by postID 0 to the comment
lookup. -/
theorem RemoveVote_comment_ok (db : DB) (u c : Nat) (w : Vote) (comment : Comment)
    (hfind : db.votes.find? (voteKeyComment u c) = some w)
    (hwpid : w.postID = none)
    (hwcid : w.commentID = some c)
    (hcomment : db.comments.find? (·.id == c) = some comment) :
    voteService.RemoveVote db u 0 c =
      ({ db with
           votes := db.votes.filter (fun x => ¬ x.id == w.id)
           comments := db.comments.map (fun q =>
             if q.id == c then
               { q with content := comment.content, updatedAt := db.now }
             else q)
           karmaLog := ("comment", c, if w.voteType = "upvote" then -1 else 1) :: db.karmaLog },
        none) := by
  have hcid : comment.id = c := by simpa using List.find?_some hcomment
  have hcmem : comment ∈ db.comments := List.mem_of_find?_eq_some hcomment
  have hwmem : w ∈ db.votes := List.mem_of_find?_eq_some hfind
  have hdel : ∃ x ∈ db.votes, x.id = w.id := ⟨w, hwmem, rfl⟩
  have hany' : ∃ x ∈ db.comments, x.id = c := ⟨comment, hcmem, hcid⟩
  simp [voteService.RemoveVote, voteRepository.GetVoteByUserAndComment, hfind,
    voteRepository.DeleteVote, hdel, hwpid, hwcid, voteService.UpdateKarma,
    commentRepository.GetCommentByID, hcomment, commentRepository.UpdateComment, hcid, hany']

/-! Claim theorems on concrete states. -/

/-- C1: the spec scenario (score 0, A casts +1, B casts +1, A changes to -1,
B removes) evaluated on the code.  All four operations report success and the
service computes the deltas 1, 1, -2, -1 (the ghost log, newest first), but
the stored karma of post 1 stays 0 after every step instead of going
1, 2, 0, -1, because the UPDATE issued by UpdateKarma (UpdatePost) never
writes the karma column.  This exhibits the divergence behind the code_bug
verdict: the karma update does not write score + delta. -/
theorem C1_scenario_stored_karma_never_changes :
    (voteService.CastVote dbA (mkVote 1 (.post 1) "upvote")).2 = none ∧
    (voteService.CastVote dbA1 (mkVote 2 (.post 1) "upvote")).2 = none ∧
    (voteService.ChangeVote dbA2 (mkVote 1 (.post 1) "downvote")).2 = none ∧
    (voteService.RemoveVote dbA3 2 1 0).2 = none ∧
    postKarma dbA1 1 = some 0 ∧ postKarma dbA2 1 = some 0 ∧
    postKarma dbA3 1 = some 0 ∧ postKarma dbA4 1 = some 0 ∧
    dbA4.karmaLog = [("post", 1, -1), ("post", 1, -2), ("post", 1, 1), ("post", 1, 1)] := by
  decide

/-- C2: after a successful CastVote the vote row is committed while the
stored score of the target is not updated, which is exactly the
partially-applied vote/score state the claim says is never left behind or
surfaced to readers; no rollback occurs. -/
theorem C2_cast_commits_vote_without_score_update :
    (voteService.CastVote dbA (mkVote 1 (.post 1) "upvote")).2 = none ∧
    (votesFor dbA1 1 (.post 1)).length = 1 ∧
    postKarma dbA1 1 = postKarma dbA 1 := by
  decide

/-- C4 counterexample: user 1 replies to message 1, which user 1 sent,
naming user 2 as receiver.  The self-reference check passes because it runs
against the caller-supplied receiver before the receiver is derived; the
derived receiver (the parent sender, user 1) then overrides the field with
no re-check, and a reply whose sender equals its stored receiver is
persisted, refuting the claim. -/
theorem C4_counterexample_self_reply_persisted :
    (messageService.ReplyToMessage dbM replyMsg).2 = none ∧
    ({ id := 2, senderID := 1, receiverID := 1, content := "re", parentID := some 1,
       createdAt := 5, updatedAt := 5 } : Message) ∈
      (messageService.ReplyToMessage dbM replyMsg).1.messages := by
  decide

/-- C3: at most one live vote per (user, target).  A state satisfying the
vote-key invariant keeps it under CastVote, ChangeVote and RemoveVote
whatever their outcome; the invariant bounds the live votes of every (u, t)
by one; CastVote fails with the Conflict error when a vote for (u, t)
already exists; and otherwise (user, target and vote type accepted by the
store) it succeeds and persists exactly the one new vote for (u, t). -/
theorem C3_at_most_one_live_vote :
    ∀ db : DB, VoteInv db →
      (∀ u t, (votesFor db u t).length ≤ 1) ∧
      (∀ v, VoteInv (voteService.CastVote db v).1) ∧
      (∀ v, VoteInv (voteService.ChangeVote db v).1) ∧
      (∀ u pid cid, VoteInv (voteService.RemoveVote db u pid cid).1) ∧
      (∀ u t vt, votesFor db u t ≠ [] →
        voteService.CastVote db (mkVote u t vt) =
          (db, some "CastVote: user has already voted on this target")) ∧
      (∀ u t vt, votesFor db u t = [] → db.users.contains u = true →
        targetExists db t = true → (vt = "upvote" ∨ vt = "downvote") →
        (voteService.CastVote db (mkVote u t vt)).2 = none ∧
        votesFor (voteService.CastVote db (mkVote u t vt)).1 u t =
          [{ mkVote u t vt with id := db.nextVoteID, createdAt := db.now, updatedAt := db.now }]) := by
  intro db hinv
  refine ⟨votesFor_length_le_one hinv, fun v => CastVote_preserves_VoteInv hinv v,
    fun v => ChangeVote_preserves_VoteInv hinv v,
    fun u pid cid => RemoveVote_preserves_VoteInv hinv u pid cid, ?_, ?_⟩
  · intro u t vt hne
    unfold votesFor at hne
    have hfind : ∃ w, db.votes.find? (voteKeyT u t) = some w := by
      rw [find?_eq_head?_filter]
      cases hf : db.votes.filter (voteKeyT u t) with
      | nil => exact absurd hf hne
      | cons a l => exact ⟨a, rfl⟩
    obtain ⟨w, hw⟩ := hfind
    cases t with
    | post p =>
      have hw' : db.votes.find? (voteKeyPost u p) = some w := hw
      unfold voteService.CastVote
      rw [if_neg (by simp [mkVote])]
      simp [mkVote, voteRepository.GetVoteByUserAndPost, hw']
    | comment c =>
      have hw' : db.votes.find? (voteKeyComment u c) = some w := hw
      unfold voteService.CastVote
      rw [if_neg (by simp [mkVote])]
      simp [mkVote, voteRepository.GetVoteByUserAndComment, hw']
  · intro u t vt hempty hu hex hvt
    unfold votesFor at hempty
    have hnone : db.votes.find? (voteKeyT u t) = none := by
      rw [find?_eq_head?_filter, hempty]
      rfl
    cases t with
    | post p =>
      unfold targetExists at hex
      have hsome : (db.posts.find? (·.id == p)).isSome :=
        List.find?_isSome.mpr (List.any_eq_true.mp hex)
      obtain ⟨post, hpost⟩ := Option.isSome_iff_exists.mp hsome
      have hempty' : db.votes.filter (voteKeyPost u p) = [] := hempty
      have hnone' : db.votes.find? (voteKeyPost u p) = none := hnone
      rw [CastVote_post_ok db u p vt post hu hpost hvt hnone']
      refine ⟨rfl, ?_⟩
      unfold votesFor
      show (db.votes ++ _).filter (voteKeyPost u p) = _
      rw [List.filter_append, hempty']
      simp [mkVote, voteKeyPost]
    | comment c =>
      unfold targetExists at hex
      have hsome : (db.comments.find? (·.id == c)).isSome :=
        List.find?_isSome.mpr (List.any_eq_true.mp hex)
      obtain ⟨comment, hcomment⟩ := Option.isSome_iff_exists.mp hsome
      have hempty' : db.votes.filter (voteKeyComment u c) = [] := hempty
      have hnone' : db.votes.find? (voteKeyComment u c) = none := hnone
      rw [CastVote_comment_ok db u c vt comment hu hcomment hvt hnone']
      refine ⟨rfl, ?_⟩
      unfold votesFor
      show (db.votes ++ _).filter (voteKeyComment u c) = _
      rw [List.filter_append, hempty']
      simp [mkVote, voteKeyComment]

/-- Witness for C3 at a concrete input: in the state after user 1 upvoted
post 1, casting again hits the Conflict error. -/
theorem C3_at_most_one_live_vote_witness :
    voteService.CastVote dbA1 (mkVote 1 (.post 1) "upvote") =
      (dbA1, some "CastVote: user has already voted on this target") :=
  (C3_at_most_one_live_vote dbA1 (by unfold VoteInv; decide)).2.2.2.2.1 1 (.post 1) "upvote"
    (by decide)

/-- C5: ChangeVote on (u, t): NotFound when no vote exists; NoOp with the
vote record and state unchanged (zero score change) when the existing value
equals the requested one; otherwise the stored value is flipped to the new
one and the karma delta handed to UpdateKarma, exactly once, equals
newValue - existing.value: +2 when changing to upvote and -2 when changing
to downvote. -/
theorem C5_changeVote_flip_and_delta :
    ∀ (db : DB) (u : Nat) (t : Target) (vt : String),
      (vt = "upvote" ∨ vt = "downvote") →
      (votesFor db u t = [] →
        voteService.ChangeVote db (mkVote u t vt) =
          (db, some ("ChangeVote: " ++ notFoundMsg t))) ∧
      (∀ ex, votesFor db u t = [ex] → ex.voteType = vt →
        voteService.ChangeVote db (mkVote u t vt) =
          (db, some "ChangeVote: vote type is already set to the desired value")) ∧
      (∀ ex, votesFor db u t = [ex] → ex.voteType ≠ vt →
        (ex.voteType = "upvote" ∨ ex.voteType = "downvote") →
        targetExists db t = true →
        (voteService.ChangeVote db (mkVote u t vt)).2 = none ∧
        votesFor (voteService.ChangeVote db (mkVote u t vt)).1 u t =
          [{ ex with voteType := vt, updatedAt := db.now }] ∧
        (voteService.ChangeVote db (mkVote u t vt)).1.karmaLog =
          (targetTypeStr t, targetIdOf t, voteVal vt - voteVal ex.voteType) :: db.karmaLog ∧
        voteVal vt - voteVal ex.voteType = (if vt = "upvote" then 2 else -2)) := by
  intro db u t vt hvt
  refine ⟨?_, ?_, ?_⟩
  · intro hempty
    have h0 : db.votes.filter (voteKeyT u t) = [] := hempty
    have hnone : db.votes.find? (voteKeyT u t) = none := by
      rw [find?_eq_head?_filter, h0]; rfl
    cases t with
    | post p =>
      have hnone' : db.votes.find? (voteKeyPost u p) = none := hnone
      rcases hvt with rfl | rfl <;>
        simp [voteService.ChangeVote, mkVote, voteRepository.GetVoteByUserAndPost, hnone',
          notFoundMsg]
    | comment c =>
      have hnone' : db.votes.find? (voteKeyComment u c) = none := hnone
      rcases hvt with rfl | rfl <;>
        simp [voteService.ChangeVote, mkVote, voteRepository.GetVoteByUserAndComment, hnone',
          notFoundMsg]
  · intro ex hex hsame
    have h0 : db.votes.filter (voteKeyT u t) = [ex] := hex
    have hfind : db.votes.find? (voteKeyT u t) = some ex := by
      rw [find?_eq_head?_filter, h0]; rfl
    cases t with
    | post p =>
      have hfind' : db.votes.find? (voteKeyPost u p) = some ex := hfind
      rcases hvt with rfl | rfl <;>
        simp [voteService.ChangeVote, mkVote, voteRepository.GetVoteByUserAndPost, hfind', hsame]
    | comment c =>
      have hfind' : db.votes.find? (voteKeyComment u c) = some ex := hfind
      rcases hvt with rfl | rfl <;>
        simp [voteService.ChangeVote, mkVote, voteRepository.GetVoteByUserAndComment, hfind', hsame]
  · intro ex hex hdiff hexvt hexists
    have h0 : db.votes.filter (voteKeyT u t) = [ex] := hex
    have hfind : db.votes.find? (voteKeyT u t) = some ex := by
      rw [find?_eq_head?_filter, h0]; rfl
    have hdelta : voteVal vt - voteVal ex.voteType = (if vt = "upvote" then 2 else -2) := by
      rcases hvt with rfl | rfl <;> rcases hexvt with hue | hue
      · exact absurd hue hdiff
      · simp [voteVal, hue]
      · simp [voteVal, hue]
      · exact absurd hue hdiff
    cases t with
    | post p =>
      unfold targetExists at hexists
      have hsome : (db.posts.find? (·.id == p)).isSome :=
        List.find?_isSome.mpr (List.any_eq_true.mp hexists)
      obtain ⟨post, hpost⟩ := Option.isSome_iff_exists.mp hsome
      have hfind' : db.votes.find? (voteKeyPost u p) = some ex := hfind
      have h0' : db.votes.filter (voteKeyPost u p) = [ex] := h0
      rw [ChangeVote_post_ok db u p vt ex post hvt hfind' hdiff hpost]
      refine ⟨rfl, ?_, ?_, hdelta⟩
      · unfold votesFor
        show (db.votes.map _).filter (voteKeyPost u p) = _
        rw [filter_map_comm _ _
          (fun w => by by_cases hw : w.id = ex.id <;> simp [voteKeyPost, hw]), h0']
        simp
      · show (_, _, (if vt = "upvote" then (2 : Int) else -2)) :: _ = _
        rw [hdelta]
        rfl
    | comment c =>
      unfold targetExists at hexists
      have hsome : (db.comments.find? (·.id == c)).isSome :=
        List.find?_isSome.mpr (List.any_eq_true.mp hexists)
      obtain ⟨comment, hcomment⟩ := Option.isSome_iff_exists.mp hsome
      have hfind' : db.votes.find? (voteKeyComment u c) = some ex := hfind
      have h0' : db.votes.filter (voteKeyComment u c) = [ex] := h0
      rw [ChangeVote_comment_ok db u c vt ex comment hvt hfind' hdiff hcomment]
      refine ⟨rfl, ?_, ?_, hdelta⟩
      · unfold votesFor
        show (db.votes.map _).filter (voteKeyComment u c) = _
        rw [filter_map_comm _ _
          (fun w => by by_cases hw : w.id = ex.id <;> simp [voteKeyComment, hw]), h0']
        simp
      · show (_, _, (if vt = "upvote" then (2 : Int) else -2)) :: _ = _
        rw [hdelta]
        rfl

/-- Witness for C5 at a concrete input: after user 1 upvoted post 1,
changing to a downvote succeeds, flips the stored vote and applies delta
-2 = (-1) - (+1) exactly once. -/
theorem C5_changeVote_flip_and_delta_witness :
    (voteService.ChangeVote dbA1 (mkVote 1 (.post 1) "downvote")).2 = none ∧
    votesFor (voteService.ChangeVote dbA1 (mkVote 1 (.post 1) "downvote")).1 1 (.post 1) =
      [{ id := 1, userID := 1, postID := some 1, commentID := none, voteType := "downvote",
         createdAt := 5, updatedAt := 5 }] ∧
    (voteService.ChangeVote dbA1 (mkVote 1 (.post 1) "downvote")).1.karmaLog =
      (targetTypeStr (.post 1), targetIdOf (.post 1), voteVal "downvote" - voteVal "upvote") ::
        dbA1.karmaLog ∧
    voteVal "downvote" - voteVal "upvote" = (if "downvote" = "upvote" then 2 else -2) :=
  (C5_changeVote_flip_and_delta dbA1 1 (.post 1) "downvote" (by decide)).2.2
    { id := 1, userID := 1, postID := some 1, commentID := none, voteType := "upvote",
      createdAt := 5, updatedAt := 5 }
    (by decide) (by decide) (by decide) (by decide)

/-- C8: ReplyToComment on an existing parent C under post P creates a node
whose PostID (the root) is P, overriding any caller-supplied post id, and
whose parentID is the id of C; on a nonexistent parent id it returns the
NotFound error and the state, hence the comment table, is unchanged. -/
theorem C8_reply_to_comment_root_derivation :
    ∀ (db : DB) (c : Comment) (pid : Nat),
      c.content ≠ "" →
      db.users.contains c.authorID = true →
      c.parentID = some pid →
      (∀ parent, commentRepository.GetCommentByID db pid = .ok parent →
        db.posts.any (·.id == parent.postID) = true →
        commentService.ReplyToComment db c =
          ({ db with
               comments := db.comments ++
                 [{ c with postID := parent.postID, id := db.nextCommentID, karma := 0, createdAt := db.now, updatedAt := db.now }]
               nextCommentID := db.nextCommentID + 1 }, none)) ∧
      (commentRepository.GetCommentByID db pid = .error "GetCommentByID: comment not found" →
        commentService.ReplyToComment db c =
          (db, some "ReplyToComment: parent comment does not exist")) := by
  intro db c pid hc hauthor hpid
  have hau : c.authorID ∈ db.users := by simpa using hauthor
  constructor
  · intro parent hparent hpostex
    have hfind : db.comments.find? (·.id == pid) = some parent := by
      unfold commentRepository.GetCommentByID at hparent
      cases hf : db.comments.find? (·.id == pid) with
      | some w => rw [hf] at hparent; injection hparent with h; rw [h]
      | none => rw [hf] at hparent; cases hparent
    have hmem : parent ∈ db.comments := List.mem_of_find?_eq_some hfind
    have hparid : parent.id = pid := by simpa using List.find?_some hfind
    have hpostneg : ¬ ∀ x ∈ db.posts, ¬ x.id = parent.postID := by
      push_neg
      rcases List.any_eq_true.mp hpostex with ⟨x, hx, hxid⟩
      exact ⟨x, hx, by simpa using hxid⟩
    have hparentany : ¬ ∀ x ∈ db.comments, ¬ x.id = pid := by
      push_neg
      exact ⟨parent, hmem, hparid⟩
    simp [commentService.ReplyToComment, hc, userRepository.GetUserByID, hau,
      commentRepository.GetCommentByID, hfind, hpid, commentRepository.CreateComment,
      hpostneg, hparentany]
  · intro herr
    have hnone : db.comments.find? (·.id == pid) = none := by
      unfold commentRepository.GetCommentByID at herr
      cases hf : db.comments.find? (·.id == pid) with
      | some w => rw [hf] at herr; cases herr
      | none => rfl
    simp [commentService.ReplyToComment, hc, userRepository.GetUserByID, hau,
      commentRepository.GetCommentByID, hnone, hpid]

/-- Witness for C8 at a concrete input: a reply to comment 1 under post 1
gets postID 1 (not the caller-supplied 99), parentID 1, karma 0 and id 2. -/
theorem C8_reply_to_comment_root_derivation_witness :
    commentService.ReplyToComment dbC replyC =
      ({ dbC with
           comments := dbC.comments ++
             [{ replyC with postID := (1 : Nat), id := dbC.nextCommentID, karma := 0, createdAt := dbC.now, updatedAt := dbC.now }]
           nextCommentID := dbC.nextCommentID + 1 }, none) :=
  ((C8_reply_to_comment_root_derivation dbC replyC 1 (by decide) (by decide) (by decide)).1
    { id := 1, content := "c1", authorID := 1, postID := 1, parentID := none,
      karma := 0, createdAt := 0, updatedAt := 0 }
    rfl (by decide))

/-- C10: CastVote does no service-layer vote-type validation: an invalid
type passes the service untouched and is rejected only by the repository
CHECK constraint; every vote the repository accepts whose type is not
upvote (i.e. downvote, by the CHECK) gets karma delta -1; ChangeVote, by
contrast, rejects any type other than upvote/downvote before reading any
state. -/
theorem C10_cast_no_validation :
    ∀ (db : DB) (u : Nat) (t : Target) (vt : String),
      (vt ≠ "upvote" → vt ≠ "downvote" →
        votesFor db u t = [] → db.users.contains u = true → targetExists db t = true →
        voteService.CastVote db (mkVote u t vt) =
          (db, some "CreateVote: CHECK constraint failed: vote_type")) ∧
      ((vt = "upvote" ∨ vt = "downvote") → vt ≠ "upvote" →
        votesFor db u t = [] → db.users.contains u = true → targetExists db t = true →
        (voteService.CastVote db (mkVote u t vt)).2 = none ∧
        (voteService.CastVote db (mkVote u t vt)).1.karmaLog =
          (targetTypeStr t, targetIdOf t, -1) :: db.karmaLog) ∧
      (∀ v : Vote, v.voteType ≠ "upvote" → v.voteType ≠ "downvote" →
        voteService.ChangeVote db v = (db, some "ChangeVote: invalid vote type")) := by
  intro db u t vt
  refine ⟨?_, ?_, ?_⟩
  · intro h1 h2 hempty hu hex
    have h0 : db.votes.filter (voteKeyT u t) = [] := hempty
    have hnone : db.votes.find? (voteKeyT u t) = none := by
      rw [find?_eq_head?_filter, h0]; rfl
    have hu' : u ∈ db.users := by simpa using hu
    cases t with
    | post p =>
      unfold targetExists at hex
      have hnone' : db.votes.find? (voteKeyPost u p) = none := hnone
      have hfk : ¬ ∀ x ∈ db.posts, ¬ x.id = p := by
        push_neg
        rcases List.any_eq_true.mp hex with ⟨x, hx, hxid⟩
        exact ⟨x, hx, by simpa using hxid⟩
      simp [voteService.CastVote, mkVote, voteRepository.GetVoteByUserAndPost, hnone',
        voteRepository.CreateVote, hu', hfk, h1, h2]
    | comment c =>
      unfold targetExists at hex
      have hnone' : db.votes.find? (voteKeyComment u c) = none := hnone
      have hfk : ¬ ∀ x ∈ db.comments, ¬ x.id = c := by
        push_neg
        rcases List.any_eq_true.mp hex with ⟨x, hx, hxid⟩
        exact ⟨x, hx, by simpa using hxid⟩
      simp [voteService.CastVote, mkVote, voteRepository.GetVoteByUserAndComment, hnone',
        voteRepository.CreateVote, hu', hfk, h1, h2]
  · intro hvt hne hempty hu hex
    have hdown : vt = "downvote" := by
      rcases hvt with rfl | rfl
      · exact absurd rfl hne
      · rfl
    subst hdown
    have h0 : db.votes.filter (voteKeyT u t) = [] := hempty
    have hnone : db.votes.find? (voteKeyT u t) = none := by
      rw [find?_eq_head?_filter, h0]; rfl
    cases t with
    | post p =>
      unfold targetExists at hex
      have hsome : (db.posts.find? (·.id == p)).isSome :=
        List.find?_isSome.mpr (List.any_eq_true.mp hex)
      obtain ⟨post, hpost⟩ := Option.isSome_iff_exists.mp hsome
      have hnone' : db.votes.find? (voteKeyPost u p) = none := hnone
      rw [CastVote_post_ok db u p "downvote" post hu hpost (Or.inr rfl) hnone']
      exact ⟨rfl, by simp [targetTypeStr, targetIdOf]⟩
    | comment c =>
      unfold targetExists at hex
      have hsome : (db.comments.find? (·.id == c)).isSome :=
        List.find?_isSome.mpr (List.any_eq_true.mp hex)
      obtain ⟨comment, hcomment⟩ := Option.isSome_iff_exists.mp hsome
      have hnone' : db.votes.find? (voteKeyComment u c) = none := hnone
      rw [CastVote_comment_ok db u c "downvote" comment hu hcomment (Or.inr rfl) hnone']
      exact ⟨rfl, by simp [targetTypeStr, targetIdOf]⟩
  · intro v h1 h2
    unfold voteService.ChangeVote
    rw [if_pos ⟨h1, h2⟩]

/-- Witness for C10 at a concrete input: casting a vote with the invalid
type sideways reaches the repository and is rejected by the CHECK
constraint, not by the service. -/
theorem C10_cast_no_validation_witness :
    voteService.CastVote dbA (mkVote 1 (.post 1) "sideways") =
      (dbA, some "CreateVote: CHECK constraint failed: vote_type") :=
  (C10_cast_no_validation dbA 1 (.post 1) "sideways").1
    (by decide) (by decide) (by decide) (by decide) (by decide)

/-- C9 counterexample: on `dbR` both comments 2 and 3 under parent 1 share
created_at 7, so the GetReplies query admits the result list [comment 3,
comment 2], which is not in ascending-id order on the tie; and with LIMIT 1
the windows at OFFSET 0 and OFFSET 1 can both be [comment 2], because each
execution may realize a different tie order.  The query therefore
guarantees neither the id tie-break nor a pagination-stable order. -/
theorem C9_counterexample_tie_and_pagination_unspecified :
    commentRepository.GetRepliesResult dbR 1 10 0
      [{ id := 3, content := "r3", authorID := 1, postID := 1, parentID := some 1,
         karma := 0, createdAt := 7, updatedAt := 7 },
       { id := 2, content := "r2", authorID := 1, postID := 1, parentID := some 1,
         karma := 0, createdAt := 7, updatedAt := 7 }] ∧
    ¬ ([({ id := 3, content := "r3", authorID := 1, postID := 1, parentID := some 1,
           karma := 0, createdAt := 7, updatedAt := 7 } : Comment),
        { id := 2, content := "r2", authorID := 1, postID := 1, parentID := some 1,
          karma := 0, createdAt := 7, updatedAt := 7 }].Pairwise
        (fun a b => a.createdAt < b.createdAt ∨ (a.createdAt = b.createdAt ∧ a.id < b.id))) ∧
    commentRepository.GetRepliesResult dbR 1 1 0
      [{ id := 2, content := "r2", authorID := 1, postID := 1, parentID := some 1,
         karma := 0, createdAt := 7, updatedAt := 7 }] ∧
    commentRepository.GetRepliesResult dbR 1 1 1
      [{ id := 2, content := "r2", authorID := 1, postID := 1, parentID := some 1,
         karma := 0, createdAt := 7, updatedAt := 7 }] := by
  refine ⟨?_, by decide, ?_, ?_⟩
  · exact ⟨[{ id := 3, content := "r3", authorID := 1, postID := 1, parentID := some 1,
              karma := 0, createdAt := 7, updatedAt := 7 },
            { id := 2, content := "r2", authorID := 1, postID := 1, parentID := some 1,
              karma := 0, createdAt := 7, updatedAt := 7 }],
      by decide, by decide, by decide⟩
  · exact ⟨[{ id := 2, content := "r2", authorID := 1, postID := 1, parentID := some 1,
              karma := 0, createdAt := 7, updatedAt := 7 },
            { id := 3, content := "r3", authorID := 1, postID := 1, parentID := some 1,
              karma := 0, createdAt := 7, updatedAt := 7 }],
      by decide, by decide, by decide⟩
  · exact ⟨[{ id := 3, content := "r3", authorID := 1, postID := 1, parentID := some 1,
              karma := 0, createdAt := 7, updatedAt := 7 },
            { id := 2, content := "r2", authorID := 1, postID := 1, parentID := some 1,
              karma := 0, createdAt := 7, updatedAt := 7 }],
      by decide, by decide, by decide⟩

/-- C9 (amended): every possible result of GetReplies, on comments and on
messages, contains only direct children of parentID (never deeper
descendants or children of other parents) and is ordered oldest-first by
created_at (non-decreasing); the relative order of rows with equal
created_at, and hence the assignment of tied rows to LIMIT/OFFSET pages, is
not determined by the query. -/
theorem C9_amended_children_oldest_first :
    ∀ (db : DB) (pid limit offset : Nat) (out : List Comment) (outM : List Message),
      (commentRepository.GetRepliesResult db pid limit offset out →
        (∀ x ∈ out, x.parentID = some pid) ∧
        out.Pairwise (fun a b => a.createdAt ≤ b.createdAt)) ∧
      (messageRepository.GetRepliesResult db pid limit offset outM →
        (∀ x ∈ outM, x.parentID = some pid) ∧
        outM.Pairwise (fun a b => a.createdAt ≤ b.createdAt)) := by
  intro db pid limit offset out outM
  constructor
  · rintro ⟨sorted, hperm, hsort, rfl⟩
    constructor
    · intro x hx
      have h1 : x ∈ sorted := List.mem_of_mem_drop (List.mem_of_mem_take hx)
      have h2 : x ∈ db.comments.filter (fun c => c.parentID == some pid) :=
        hperm.mem_iff.mp h1
      simpa using List.of_mem_filter h2
    · exact hsort.sublist ((List.take_sublist _ _).trans (List.drop_sublist _ _))
  · rintro ⟨sorted, hperm, hsort, rfl⟩
    constructor
    · intro x hx
      have h1 : x ∈ sorted := List.mem_of_mem_drop (List.mem_of_mem_take hx)
      have h2 : x ∈ db.messages.filter (fun m => m.parentID == some pid) :=
        hperm.mem_iff.mp h1
      simpa using List.of_mem_filter h2
    · exact hsort.sublist ((List.take_sublist _ _).trans (List.drop_sublist _ _))

/-- Witness for the amended C9 at a concrete input: the ascending-id result
on `dbR` is one possible query result, and the theorem yields its
direct-children and oldest-first properties. -/
theorem C9_amended_children_oldest_first_witness :
    (∀ x ∈ [({ id := 2, content := "r2", authorID := 1, postID := 1, parentID := some 1,
               karma := 0, createdAt := 7, updatedAt := 7 } : Comment),
            { id := 3, content := "r3", authorID := 1, postID := 1, parentID := some 1,
              karma := 0, createdAt := 7, updatedAt := 7 }], x.parentID = some 1) ∧
    ([({ id := 2, content := "r2", authorID := 1, postID := 1, parentID := some 1,
         karma := 0, createdAt := 7, updatedAt := 7 } : Comment),
      { id := 3, content := "r3", authorID := 1, postID := 1, parentID := some 1,
        karma := 0, createdAt := 7, updatedAt := 7 }].Pairwise
      (fun a b => a.createdAt ≤ b.createdAt)) :=
  (C9_amended_children_oldest_first dbR 1 10 0
    [{ id := 2, content := "r2", authorID := 1, postID := 1, parentID := some 1,
       karma := 0, createdAt := 7, updatedAt := 7 },
     { id := 3, content := "r3", authorID := 1, postID := 1, parentID := some 1,
       karma := 0, createdAt := 7, updatedAt := 7 }] []).1
    ⟨[{ id := 2, content := "r2", authorID := 1, postID := 1, parentID := some 1,
        karma := 0, createdAt := 7, updatedAt := 7 },
      { id := 3, content := "r3", authorID := 1, postID := 1, parentID := some 1,
        karma := 0, createdAt := 7, updatedAt := 7 }],
     by decide, by decide, by decide⟩

/-- C7: starting from a state with no live vote for (u, t), fresh vote ids
and an existing user and target, a successful CastVote by u on t followed
immediately by RemoveVote by u on t succeeds, leaves the target stored
score at its pre-cast value and leaves no live vote for (u, t). -/
theorem C7_cast_then_remove_roundtrip :
    ∀ (db : DB) (u : Nat) (t : Target) (vt : String),
      (∀ w ∈ db.votes, w.id < db.nextVoteID) →
      votesFor db u t = [] →
      db.users.contains u = true →
      targetExists db t = true →
      (vt = "upvote" ∨ vt = "downvote") →
      targetIdOf t ≠ 0 →
      (voteService.CastVote db (mkVote u t vt)).2 = none ∧
      (voteService.RemoveVote (voteService.CastVote db (mkVote u t vt)).1
        u (removeArgs t).1 (removeArgs t).2).2 = none ∧
      targetKarma (voteService.RemoveVote (voteService.CastVote db (mkVote u t vt)).1
        u (removeArgs t).1 (removeArgs t).2).1 t = targetKarma db t ∧
      votesFor (voteService.RemoveVote (voteService.CastVote db (mkVote u t vt)).1
        u (removeArgs t).1 (removeArgs t).2).1 u t = [] := by
  intro db u t vt hfresh hempty hu hex hvt hid0
  cases t with
  | post p =>
    unfold targetExists at hex
    unfold targetIdOf at hid0
    have hsome : (db.posts.find? (·.id == p)).isSome :=
      List.find?_isSome.mpr (List.any_eq_true.mp hex)
    obtain ⟨post, hpost⟩ := Option.isSome_iff_exists.mp hsome
    have h0 : db.votes.filter (voteKeyPost u p) = [] := hempty
    have hnone : db.votes.find? (voteKeyPost u p) = none := by
      rw [find?_eq_head?_filter, h0]; rfl
    rw [CastVote_post_ok db u p vt post hu hpost hvt hnone]
    simp only [removeArgs]
    refine ⟨by simp, ?_⟩
    have hfind1 : (db.votes ++
        [{ mkVote u (.post p) vt with id := db.nextVoteID, createdAt := db.now, updatedAt := db.now }]).find?
          (voteKeyPost u p) =
        some { mkVote u (.post p) vt with id := db.nextVoteID, createdAt := db.now, updatedAt := db.now } := by
      rw [List.find?_append, hnone]
      simp [mkVote, voteKeyPost]
    have hkeyf : ∀ x : Post,
        ((fun q : Post => q.id == p)
          (if x.id == p then { x with title := post.title, content := post.content, updatedAt := db.now } else x)) =
        ((fun q : Post => q.id == p) x) := by
      intro x
      by_cases hx : x.id == p <;> simp [hx]
    have hpost1 : ((db.posts.map (fun q =>
        if q.id == p then { q with title := post.title, content := post.content, updatedAt := db.now } else q)).find?
          (·.id == p)) =
        some ((fun q : Post =>
          if q.id == p then { q with title := post.title, content := post.content, updatedAt := db.now } else q) post) := by
      rw [find?_map_comm _ _ hkeyf, hpost]
      rfl
    rw [RemoveVote_post_ok _ u p _ _ hid0 hfind1 rfl hpost1]
    refine ⟨rfl, ?_, ?_⟩
    · simp only [targetKarma, postKarma]
      rw [map_find?_val _ _ _ (fun x => by by_cases hx : x.id == p <;> simp [hx])
        (fun x => by by_cases hx : x.id == p <;> simp [hx])]
      rw [map_find?_val _ _ _ hkeyf (fun x => by by_cases hx : x.id == p <;> simp [hx])]
    · have hfilter : ((db.votes ++
          [{ mkVote u (.post p) vt with id := db.nextVoteID, createdAt := db.now, updatedAt := db.now }]).filter
            (fun x => ¬ x.id == db.nextVoteID)) = db.votes := by
        rw [List.filter_append]
        have h1 : db.votes.filter (fun x => ¬ x.id == db.nextVoteID) = db.votes :=
          List.filter_eq_self.mpr (fun w hw => by
            simp only [decide_not, Bool.not_eq_true', decide_eq_false_iff_not, beq_iff_eq]
            exact Nat.ne_of_lt (hfresh w hw))
        have h2 : ([{ mkVote u (.post p) vt with id := db.nextVoteID, createdAt := db.now, updatedAt := db.now }].filter
            (fun x => ¬ x.id == db.nextVoteID) : List Vote) = [] := by
          simp
        rw [h1, h2, List.append_nil]
      unfold votesFor
      show ((db.votes ++ _).filter _).filter (voteKeyPost u p) = []
      rw [hfilter, h0]
  | comment c =>
    unfold targetExists at hex
    have hsome : (db.comments.find? (·.id == c)).isSome :=
      List.find?_isSome.mpr (List.any_eq_true.mp hex)
    obtain ⟨comment, hcomment⟩ := Option.isSome_iff_exists.mp hsome
    have h0 : db.votes.filter (voteKeyComment u c) = [] := hempty
    have hnone : db.votes.find? (voteKeyComment u c) = none := by
      rw [find?_eq_head?_filter, h0]; rfl
    rw [CastVote_comment_ok db u c vt comment hu hcomment hvt hnone]
    simp only [removeArgs]
    refine ⟨by simp, ?_⟩
    have hfind1 : (db.votes ++
        [{ mkVote u (.comment c) vt with id := db.nextVoteID, createdAt := db.now, updatedAt := db.now }]).find?
          (voteKeyComment u c) =
        some { mkVote u (.comment c) vt with id := db.nextVoteID, createdAt := db.now, updatedAt := db.now } := by
      rw [List.find?_append, hnone]
      simp [mkVote, voteKeyComment]
    have hkeyf : ∀ x : Comment,
        ((fun q : Comment => q.id == c)
          (if x.id == c then { x with content := comment.content, updatedAt := db.now } else x)) =
        ((fun q : Comment => q.id == c) x) := by
      intro x
      by_cases hx : x.id == c <;> simp [hx]
    have hcomment1 : ((db.comments.map (fun q =>
        if q.id == c then { q with content := comment.content, updatedAt := db.now } else q)).find?
          (·.id == c)) =
        some ((fun q : Comment =>
          if q.id == c then { q with content := comment.content, updatedAt := db.now } else q) comment) := by
      rw [find?_map_comm _ _ hkeyf, hcomment]
      rfl
    rw [RemoveVote_comment_ok _ u c _ _ hfind1 rfl rfl hcomment1]
    refine ⟨rfl, ?_, ?_⟩
    · simp only [targetKarma, commentKarma]
      rw [map_find?_val _ _ _ (fun x => by by_cases hx : x.id == c <;> simp [hx])
        (fun x => by by_cases hx : x.id == c <;> simp [hx])]
      rw [map_find?_val _ _ _ hkeyf (fun x => by by_cases hx : x.id == c <;> simp [hx])]
    · have hfilter : ((db.votes ++
          [{ mkVote u (.comment c) vt with id := db.nextVoteID, createdAt := db.now, updatedAt := db.now }]).filter
            (fun x => ¬ x.id == db.nextVoteID)) = db.votes := by
        rw [List.filter_append]
        have h1 : db.votes.filter (fun x => ¬ x.id == db.nextVoteID) = db.votes :=
          List.filter_eq_self.mpr (fun w hw => by
            simp only [decide_not, Bool.not_eq_true', decide_eq_false_iff_not, beq_iff_eq]
            exact Nat.ne_of_lt (hfresh w hw))
        have h2 : ([{ mkVote u (.comment c) vt with id := db.nextVoteID, createdAt := db.now, updatedAt := db.now }].filter
            (fun x => ¬ x.id == db.nextVoteID) : List Vote) = [] := by
          simp
        rw [h1, h2, List.append_nil]
      unfold votesFor
      show ((db.votes ++ _).filter _).filter (voteKeyComment u c) = []
      rw [hfilter, h0]

/-- Witness for C7 at a concrete input: user 1 casts an upvote on post 1 in
the empty-votes state, removes it, and the stored score and vote set are
back where they started. -/
theorem C7_cast_then_remove_roundtrip_witness :
    (voteService.CastVote dbA (mkVote 1 (.post 1) "upvote")).2 = none ∧
    (voteService.RemoveVote (voteService.CastVote dbA (mkVote 1 (.post 1) "upvote")).1
      1 (removeArgs (.post 1)).1 (removeArgs (.post 1)).2).2 = none ∧
    targetKarma (voteService.RemoveVote (voteService.CastVote dbA (mkVote 1 (.post 1) "upvote")).1
      1 (removeArgs (.post 1)).1 (removeArgs (.post 1)).2).1 (.post 1) = targetKarma dbA (.post 1) ∧
    votesFor (voteService.RemoveVote (voteService.CastVote dbA (mkVote 1 (.post 1) "upvote")).1
      1 (removeArgs (.post 1)).1 (removeArgs (.post 1)).2).1 1 (.post 1) = [] :=
  C7_cast_then_remove_roundtrip dbA 1 (.post 1) "upvote"
    (by decide) (by decide) (by decide) (by decide) (by decide) (by decide)

/-- C6 counterexample: RemoveVote called with both a nonzero postID and a
nonzero commentID succeeds (it silently treats the call as a post vote
removal) instead of failing with InvalidTarget, refuting the claim for
RemoveVote. -/
theorem C6_counterexample_removeVote_both_ids :
    (voteService.RemoveVote dbA1 1 1 7).2 = none := by
  decide

/-- C4 (amended): SendMessage rejects sender = caller-supplied receiver with
the SelfReference error before any write, and ReplyToMessage performs the
same check against the caller-supplied receiver before deriving the
receiver; on the reply path the parent sender then always overrides the
caller-supplied receiver, with no re-check, and the reply is persisted with
that derived receiver. -/
theorem C4_amended_self_reference_checks :
    ∀ (db : DB) (m : Message),
      (m.content ≠ "" → m.senderID = m.receiverID →
        messageService.SendMessage db m =
          (db, some "SendMessage: sender and receiver cannot be the same")) ∧
      (m.content ≠ "" → m.senderID = m.receiverID →
        messageService.ReplyToMessage db m =
          (db, some "ReplyToMessage: sender and receiver cannot be the same")) ∧
      (∀ pid parent,
        m.content ≠ "" → m.senderID ≠ m.receiverID →
        db.users.contains m.senderID = true →
        m.parentID = some pid →
        messageRepository.GetMessageByID db pid = .ok parent →
        db.users.contains parent.senderID = true →
        messageService.ReplyToMessage db m =
          ({ db with
               messages := db.messages ++
                 [{ m with receiverID := parent.senderID, id := db.nextMessageID, createdAt := db.now, updatedAt := db.now }]
               nextMessageID := db.nextMessageID + 1 }, none)) := by
  intro db m
  refine ⟨?_, ?_, ?_⟩
  · intro hc hs
    unfold messageService.SendMessage
    rw [if_neg hc, if_pos hs]
  · intro hc hs
    unfold messageService.ReplyToMessage
    rw [if_neg hc, if_pos hs]
  · intro pid parent hc hs hsender hpid hparent hrecv
    have hfind : db.messages.find? (·.id == pid) = some parent := by
      unfold messageRepository.GetMessageByID at hparent
      cases hf : db.messages.find? (·.id == pid) with
      | some w =>
        rw [hf] at hparent
        injection hparent with h
        rw [h]
      | none => rw [hf] at hparent; cases hparent
    have hmem : parent ∈ db.messages := List.mem_of_find?_eq_some hfind
    have hparid : parent.id = pid := by simpa using List.find?_some hfind
    have hs' : m.senderID ∈ db.users := by simpa using hsender
    have hr' : parent.senderID ∈ db.users := by simpa using hrecv
    have hanymsg : ¬ ∀ x ∈ db.messages, ¬ x.id = pid := by
      push_neg
      exact ⟨parent, hmem, hparid⟩
    simp [messageService.ReplyToMessage, hc, hs, userRepository.GetUserByID, hs',
      messageRepository.GetMessageByID, hfind, hpid, messageRepository.SendMessage, hr',
      hanymsg]

/-- Witness for the amended C4 at a concrete input: a self-addressed message
hits the SelfReference check of SendMessage. -/
theorem C4_amended_self_reference_checks_witness :
    messageService.SendMessage dbM
        { id := 0, senderID := 1, receiverID := 1, content := "x", parentID := none,
          createdAt := 0, updatedAt := 0 } =
      (dbM, some "SendMessage: sender and receiver cannot be the same") :=
  (C4_amended_self_reference_checks dbM
    { id := 0, senderID := 1, receiverID := 1, content := "x", parentID := none,
      createdAt := 0, updatedAt := 0 }).1 (by decide) (by decide)

/-- C6 (amended): CastVote and ChangeVote reject a vote referencing both or
neither target with the InvalidTarget error before any repository read (for
ChangeVote, once the vote type passed its earlier check); RemoveVote has no
such validation: with a nonzero postID the commentID argument is ignored
entirely, and with both arguments zero it attempts a comment lookup with id
0 and fails NotFound when no such vote exists. -/
theorem C6_amended_target_validation :
    ∀ (db : DB) (v : Vote) (u pid cid : Nat),
      ((v.postID = none ∧ v.commentID = none) ∨ (v.postID ≠ none ∧ v.commentID ≠ none) →
        voteService.CastVote db v =
          (db, some "CastVote: vote must be on either a post or a comment")) ∧
      ((v.voteType = "upvote" ∨ v.voteType = "downvote") →
        (v.postID = none ∧ v.commentID = none) ∨ (v.postID ≠ none ∧ v.commentID ≠ none) →
        voteService.ChangeVote db v =
          (db, some "ChangeVote: vote must be on either a post or a comment")) ∧
      (pid ≠ 0 → voteService.RemoveVote db u pid cid = voteService.RemoveVote db u pid 0) ∧
      (votesFor db u (.comment 0) = [] →
        voteService.RemoveVote db u 0 0 =
          (db, some "RemoveVote: GetVoteByUserAndComment: vote not found")) := by
  intro db v u pid cid
  refine ⟨?_, ?_, ?_, ?_⟩
  · intro hg
    unfold voteService.CastVote
    rw [if_pos hg]
  · intro hvt hg
    unfold voteService.ChangeVote
    rw [if_neg (by rcases hvt with h | h <;> simp [h]), if_pos hg]
  · intro hp
    simp [voteService.RemoveVote, hp]
  · intro hempty
    have h0 : db.votes.filter (voteKeyComment u 0) = [] := hempty
    have hnone : db.votes.find? (voteKeyComment u 0) = none := by
      rw [find?_eq_head?_filter, h0]
      rfl
    unfold voteService.RemoveVote
    rw [if_neg (by simp)]
    simp [voteRepository.GetVoteByUserAndComment, hnone]

/-- Witness for the amended C6 at a concrete input: RemoveVote with both
arguments zero fails with the comment-lookup NotFound error. -/
theorem C6_amended_target_validation_witness :
    voteService.RemoveVote dbA 1 0 0 =
      (dbA, some "RemoveVote: GetVoteByUserAndComment: vote not found") :=
  (C6_amended_target_validation dbA (mkVote 1 (.post 1) "upvote") 1 5 7).2.2.2 (by decide)

end RedditClone
